import Mathlib

/-
  Verification of the librosie bridge layer (src/c/librosie/librosie.h).

  The header declares the cross-boundary data model (struct string, struct
  stringArray), the buffer constructors (new_string, the CONST_STRING macro),
  the bounds-checked element accessor (the stringArrayRef macro), and the
  lifecycle / registry / dispatch entry points (initialize, finalize,
  rosie_api, new_engine, inspect_engine, match, delete_engine).

  The macros CONST_STRING and stringArrayRef are given in full in the header
  and are embedded from that source text.  The function bodies live outside
  the visible fragment; those operations are modelled from the specification,
  as the doc comment of each such definition states.
-/

set_option maxHeartbeats 1000000

namespace Librosie

/-- A byte crossing the boundary, modelled as a natural number. -/
abbrev Byte := Nat

/-- The C struct string of librosie.h lines 19-22: a length-prefixed byte
buffer.  `len` models the uint32_t length field and `ptr` models the byte
sequence reachable from the data pointer. -/
structure string where
  len : Nat
  ptr : List Byte
deriving DecidableEq

/-- The C struct stringArray of librosie.h lines 24-27: `n` models the
uint32_t element count and `ptr` models the array of pointers to struct
string, with `none` standing for a null pointer. -/
structure stringArray where
  n : Nat
  ptr : List (Option string)
deriving DecidableEq

/-- Build a string whose length field equals the number of bytes. -/
def mkBuf (bs : List Byte) : string :=
  { len := bs.length, ptr := bs }

/-- Modelled from the spec: the body of new_string (declared at librosie.h
line 29) is not in the visible fragment.  Per the spec, construction takes a
raw byte span plus an explicit length and copies exactly that many bytes,
with no reliance on terminators. -/
def new_string (msg : List Byte) (len : Nat) : string :=
  { len := len, ptr := msg.take len }

/-- The C strlen applied to the byte sequence at a pointer: the number of
bytes strictly before the first zero byte. -/
def strlen (bs : List Byte) : Nat :=
  (bs.takeWhile (fun b => b ≠ 0)).length

/-- The CONST_STRING macro of librosie.h line 35: it builds a struct string
whose len field is strlen of the argument and whose data pointer is the
argument itself. -/
def CONST_STRING (str : List Byte) : string :=
  { len := strlen str, ptr := str }

/-- The stringArrayRef macro of librosie.h line 36: if the count field is
greater than the position, read the element at that position, otherwise
produce the null pointer. -/
def stringArrayRef (a : stringArray) (pos : Nat) : Option string :=
  if a.n > pos then a.ptr.getD pos none else none

/-- Modelled from the spec: a heap of allocated buffers, used to state the
deep-copy contract of copy_string_ptr (declared at librosie.h line 30, body
not in the visible fragment).  Addresses are indices into the allocation
list. -/
structure Store where
  bufs : List string
deriving DecidableEq

/-- Read the buffer stored at an address. -/
def Store.read (h : Store) (a : Nat) : string :=
  h.bufs.getD a (mkBuf [])

/-- Overwrite the backing storage at an address. -/
def Store.write (h : Store) (a : Nat) (v : string) : Store :=
  { bufs := h.bufs.set a v }

/-- Modelled from the spec: copy_string_ptr allocates fresh storage at a new
address and deep-copies the source buffer into it. -/
def copy_string_ptr (h : Store) (a : Nat) : Store × Nat :=
  ({ bufs := h.bufs ++ [h.read a] }, h.bufs.length)

/-- Modelled from the spec: the taxonomy of result statuses carried in the
status slot of every returned BufferArray (spec sections 6 and 7). -/
inductive Status where
  | ok
  | usageError
  | unknownEngine
  | unknownOperation
  | arityError
  | engineError
deriving DecidableEq

/-- The integer code written into the status buffer for each status kind. -/
def Status.code : Status → Nat
  | .ok => 0
  | .usageError => 1
  | .unknownEngine => 2
  | .unknownOperation => 3
  | .arityError => 4
  | .engineError => 5

/-- Whether a status belongs to the usage-error class of the spec's error
taxonomy (not initialized, double-initialize, unknown engine, unknown
operation, arity mismatch). -/
def Status.isUsageClass : Status → Bool
  | .usageError => true
  | .unknownEngine => true
  | .unknownOperation => true
  | .arityError => true
  | _ => false

/-- The one-byte buffer encoding a status in the status slot. -/
def statusBuf (s : Status) : string :=
  mkBuf [s.code]

/-- A buffer encoding a boolean flag. -/
def boolBuf (b : Bool) : string :=
  mkBuf [if b then 1 else 0]

/-- A buffer encoding a natural number. -/
def natBuf (k : Nat) : string :=
  mkBuf [k]

/-- The buffer encoding an engine identifier. -/
def idBuf (i : Nat) : string :=
  mkBuf [i]

/-- Decode an engine-identifier buffer back to the identifier it encodes. -/
def decodeId (s : string) : Option Nat :=
  match s.ptr with
  | [i] => if s.len = 1 then some i else none
  | _ => none

/-- Modelled from the spec: every boundary operation packages its results as
a BufferArray whose element 0 is the status buffer and whose later elements
are the positional payloads. -/
def mkResult (s : Status) (payload : List string) : stringArray :=
  { n := payload.length + 1, ptr := some (statusBuf s) :: payload.map some }

/-- The status slot of a result: element 0 read through stringArrayRef. -/
def resultStatus (a : stringArray) : Option string :=
  stringArrayRef a 0

/-- The well-formedness invariant of a returned BufferArray: the count equals
the number of elements, no element is null, and element 0 is a status
buffer. -/
def wellFormedResult (a : stringArray) : Prop :=
  a.n = a.ptr.length ∧ 0 < a.n ∧ (∀ x ∈ a.ptr, x.isSome = true) ∧
    ∃ s : Status, resultStatus a = some (statusBuf s)

/-- The three states of the process-wide runtime singleton. -/
inductive RuntimeState where
  | uninitialized
  | initialized
  | finalized
deriving DecidableEq

/-- Modelled from the spec: a live engine instance, holding its configuration
bytes and the matcher provided by the external pattern-engine collaborator.
The matcher returns the leftover length on a match and none on no match. -/
structure Engine where
  config : List Byte
  matcher : List Byte → Option Nat

/-- The matcher of a trivial always-succeed pattern: it matches the empty
prefix of every input, leaving the whole input as leftover. -/
def trivialMatcher : List Byte → Option Nat :=
  fun input => some input.length

/-- Modelled from the spec: the process-wide bridge state, holding the
runtime lifecycle state and the engine registry (identifier-to-engine map
plus the next fresh identifier). -/
structure RosieState where
  runtime : RuntimeState
  engines : List (Nat × Engine)
  nextId : Nat

/-- Look an identifier up in the registry, returning the first binding. -/
def lookupId (i : Nat) : List (Nat × Engine) → Option Engine
  | [] => none
  | p :: rest => if p.1 = i then some p.2 else lookupId i rest

/-- Resolve an engine-identifier buffer to a live engine. -/
def lookupEngine (st : RosieState) (eid : string) : Option Engine :=
  match decodeId eid with
  | none => none
  | some i => lookupId i st.engines

/-- Modelled from the spec: initialize (declared at librosie.h line 38, body
not in the visible fragment) transitions uninitialized to initialized when
the home path is usable, and otherwise returns a usage error with the state
unchanged.  `usable` is the oracle telling whether a home path resolves to a
usable runtime installation. -/
def rosie_init (usable : List Byte → Bool) (st : RosieState) (home : List Byte) :
    stringArray × RosieState :=
  if st.runtime = RuntimeState.uninitialized then
    if usable home then
      (mkResult Status.ok [], { st with runtime := RuntimeState.initialized })
    else
      (mkResult Status.usageError [], st)
  else
    (mkResult Status.usageError [], st)

/-- Modelled from the spec: finalize (declared at librosie.h line 39, body
not in the visible fragment) releases the runtime's global state and
invalidates every outstanding engine identifier. -/
def finalize (st : RosieState) : RosieState :=
  { st with runtime := RuntimeState.finalized, engines := [] }

/-- Modelled from the spec: new_engine (declared at librosie.h line 41, body
not in the visible fragment) parses the configuration, registers a fresh
identifier, and returns that identifier after the status slot.  `parse` is
the external collaborator's configuration parser. -/
def new_engine (parse : string → Option Engine) (st : RosieState) (config : string) :
    stringArray × RosieState :=
  if st.runtime = RuntimeState.initialized then
    match parse config with
    | none => (mkResult Status.engineError [], st)
    | some eng =>
        (mkResult Status.ok [idBuf st.nextId],
         { st with engines := (st.nextId, eng) :: st.engines, nextId := st.nextId + 1 })
  else
    (mkResult Status.usageError [], st)

/-- Modelled from the spec: inspect_engine (declared at librosie.h line 42,
body not in the visible fragment) describes a live engine and fails with
unknown-engine when the identifier names none. -/
def inspect_engine (st : RosieState) (eid : string) : stringArray × RosieState :=
  if st.runtime = RuntimeState.initialized then
    match lookupEngine st eid with
    | none => (mkResult Status.unknownEngine [], st)
    | some eng => (mkResult Status.ok [mkBuf eng.config], st)
  else
    (mkResult Status.usageError [], st)

/-- Modelled from the spec: match (declared at librosie.h line 43, body not
in the visible fragment) runs the engine's matcher on the input and returns,
after the status slot, the matched flag, the matched portion, the leftover
length, and a diagnostics buffer. -/
def rosie_match (st : RosieState) (eid : string) (input : string) :
    stringArray × RosieState :=
  if st.runtime = RuntimeState.initialized then
    match lookupEngine st eid with
    | none => (mkResult Status.unknownEngine [], st)
    | some eng =>
        match eng.matcher input.ptr with
        | none => (mkResult Status.ok [boolBuf false], st)
        | some leftover =>
            (mkResult Status.ok
              [boolBuf true, mkBuf (input.ptr.take (input.ptr.length - leftover)),
               natBuf leftover, mkBuf []], st)
  else
    (mkResult Status.usageError [], st)

/-- Modelled from the spec: delete_engine (declared at librosie.h line 44,
body not in the visible fragment) unregisters and destroys the engine named
by the identifier, and reports a non-fatal unknown-engine status when the
identifier names no live engine. -/
def delete_engine (st : RosieState) (eid : string) : stringArray × RosieState :=
  if st.runtime = RuntimeState.initialized then
    match decodeId eid with
    | none => (mkResult Status.unknownEngine [], st)
    | some i =>
        match lookupId i st.engines with
        | none => (mkResult Status.unknownEngine [], st)
        | some _ =>
            (mkResult Status.ok [],
             { st with engines := st.engines.filter (fun p => p.1 != i) })
  else
    (mkResult Status.usageError [], st)

/-- The operation name bytes for new_engine. -/
def opNewEngine : List Byte := [110, 101, 119, 95, 101, 110, 103, 105, 110, 101]

/-- The operation name bytes for inspect_engine. -/
def opInspectEngine : List Byte :=
  [105, 110, 115, 112, 101, 99, 116, 95, 101, 110, 103, 105, 110, 101]

/-- The operation name bytes for match. -/
def opMatch : List Byte := [109, 97, 116, 99, 104]

/-- The operation name bytes for delete_engine. -/
def opDeleteEngine : List Byte :=
  [100, 101, 108, 101, 116, 101, 95, 101, 110, 103, 105, 110, 101]

/-- The fixed, statically known set of operation names the dispatcher
resolves. -/
def supportedOps : List (List Byte) :=
  [opNewEngine, opInspectEngine, opMatch, opDeleteEngine]

/-- Modelled from the spec: rosie_api (declared at librosie.h line 40, body
not in the visible fragment) resolves the operation name against the fixed
set of supported operations, checks the argument arity, and delegates to the
named operation; an unknown name yields an unknown-operation error with no
side effects. -/
def rosie_api (parse : string → Option Engine) (st : RosieState)
    (name : List Byte) (args : List string) : stringArray × RosieState :=
  if name = opNewEngine then
    match args with
    | [c] => new_engine parse st c
    | _ => (mkResult Status.arityError [], st)
  else if name = opInspectEngine then
    match args with
    | [e] => inspect_engine st e
    | _ => (mkResult Status.arityError [], st)
  else if name = opMatch then
    match args with
    | [e, i] => rosie_match st e i
    | _ => (mkResult Status.arityError [], st)
  else if name = opDeleteEngine then
    match args with
    | [e] => delete_engine st e
    | _ => (mkResult Status.arityError [], st)
  else
    (mkResult Status.unknownOperation [], st)

theorem getElem?_eq_some_getD {α : Type} (l : List (Option α)) (pos : Nat)
    (h : pos < l.length) : l[pos]? = some (l.getD pos none) := by
  induction l generalizing pos with
  | nil => simp at h
  | cons x xs ih =>
      cases pos with
      | zero => simp
      | succ k =>
          have hk : k < xs.length := by simpa using h
          simpa using ih k hk

/-- C10: the stringArrayRef macro is bounds-checked and total: under the
count invariant, a position below the count reads exactly that element of
the array, and a position at or above the count yields the null pointer, so
no out-of-bounds element is ever read. -/
theorem stringArrayRef_bounds (a : stringArray) (pos : Nat)
    (hwf : a.n = a.ptr.length) :
    (pos < a.n → a.ptr[pos]? = some (stringArrayRef a pos)) ∧
    (a.n ≤ pos → stringArrayRef a pos = none) := by
  constructor
  · intro h
    have hlt : pos < a.ptr.length := by omega
    unfold stringArrayRef
    rw [if_pos h]
    exact getElem?_eq_some_getD a.ptr pos hlt
  · intro h
    unfold stringArrayRef
    rw [if_neg (by omega)]

/-- A concrete one-element array used to instantiate hypotheses. -/
def witArray : stringArray :=
  { n := 1, ptr := [some (mkBuf [7])] }

/-- Witness for C10 at the concrete array witArray and positions 0 and 1. -/
theorem stringArrayRef_bounds_witness :
    (witArray.n = witArray.ptr.length) ∧
    ((0 < witArray.n → witArray.ptr[0]? = some (stringArrayRef witArray 0)) ∧
     (witArray.n ≤ 0 → stringArrayRef witArray 0 = none)) ∧
    ((1 < witArray.n → witArray.ptr[1]? = some (stringArrayRef witArray 1)) ∧
     (witArray.n ≤ 1 → stringArrayRef witArray 1 = none)) :=
  ⟨rfl, stringArrayRef_bounds witArray 0 rfl, stringArrayRef_bounds witArray 1 rfl⟩

/-- C1 counterexample: the CONST_STRING constructor of librosie.h relies on
strlen, an implicit-terminator scan, so on the byte sequence 65, 0, 66 with
an embedded zero byte it produces a len field of 1 rather than the sequence
length 3; the claimed construction property fails on this constructor. -/
theorem CONST_STRING_embedded_zero :
    (CONST_STRING [65, 0, 66]).len = 1 ∧
    ([65, 0, 66] : List Byte).length = 3 ∧
    ¬ ((CONST_STRING [65, 0, 66]).len = ([65, 0, 66] : List Byte).length ∧
       (CONST_STRING [65, 0, 66]).ptr.take (CONST_STRING [65, 0, 66]).len
         = [65, 0, 66]) := by
  decide

/-- C1 (amended): construction with an explicit length (new_string) never
relies on implicit terminators: for every byte sequence, including ones with
embedded zero bytes, it produces a buffer whose len equals the given length
and whose data is the full sequence; the CONST_STRING macro, which takes no
explicit length, derives its len via strlen and therefore agrees with the
sequence length only when the sequence contains no zero byte. -/
theorem new_string_explicit_length (bs : List Byte) :
    new_string bs bs.length = mkBuf bs ∧
    ((0 : Byte) ∉ bs → CONST_STRING bs = mkBuf bs) := by
  constructor
  · unfold new_string mkBuf
    rw [List.take_length]
  · intro h
    unfold CONST_STRING mkBuf strlen
    have : bs.takeWhile (fun b => b ≠ 0) = bs := by
      rw [List.takeWhile_eq_self_iff]
      intro x hx
      simpa using fun e : x = 0 => h (e ▸ hx)
    rw [this]

/-- Witness for C1's amended theorem at a concrete zero-free sequence. -/
theorem new_string_explicit_length_witness :
    (0 : Byte) ∉ ([65, 66] : List Byte) ∧
    (new_string [65, 66] ([65, 66] : List Byte).length = mkBuf [65, 66] ∧
     ((0 : Byte) ∉ ([65, 66] : List Byte) → CONST_STRING [65, 66] = mkBuf [65, 66])) :=
  ⟨by decide, new_string_explicit_length [65, 66]⟩

/-- C2: copy_string_ptr yields a buffer at a fresh address distinct from the
source address, with identical content, and overwriting the backing storage
at either address leaves the content read through the other address
unchanged. -/
theorem copy_string_ptr_deep (h : Store) (a : Nat) (v : string)
    (hv : a < h.bufs.length) :
    (copy_string_ptr h a).2 ≠ a ∧
    (copy_string_ptr h a).1.read (copy_string_ptr h a).2 = h.read a ∧
    ((copy_string_ptr h a).1.write a v).read (copy_string_ptr h a).2 = h.read a ∧
    ((copy_string_ptr h a).1.write (copy_string_ptr h a).2 v).read a = h.read a := by
  have hfresh : (copy_string_ptr h a).2 = h.bufs.length := rfl
  refine ⟨by omega, ?_, ?_, ?_⟩
  · unfold copy_string_ptr Store.read
    simp [List.getD_eq_getElem?_getD, List.getElem?_append_right]
  · unfold copy_string_ptr Store.read Store.write
    simp only [List.getD_eq_getElem?_getD]
    rw [List.getElem?_set_ne (by omega)]
    simp [List.getElem?_append_right]
  · unfold copy_string_ptr Store.read Store.write
    simp only [List.getD_eq_getElem?_getD]
    rw [List.getElem?_set_ne (by omega)]
    rw [List.getElem?_append_left hv]

/-- A concrete store used to instantiate the deep-copy contract. -/
def witStore : Store :=
  { bufs := [mkBuf [1, 2]] }

/-- Witness for C2 at the concrete store witStore, address 0 and an
overwriting value. -/
theorem copy_string_ptr_deep_witness :
    (0 < witStore.bufs.length) ∧
    ((copy_string_ptr witStore 0).2 ≠ 0 ∧
     (copy_string_ptr witStore 0).1.read (copy_string_ptr witStore 0).2
       = witStore.read 0 ∧
     ((copy_string_ptr witStore 0).1.write 0 (mkBuf [9])).read
         (copy_string_ptr witStore 0).2 = witStore.read 0 ∧
     ((copy_string_ptr witStore 0).1.write (copy_string_ptr witStore 0).2
         (mkBuf [9])).read 0 = witStore.read 0) :=
  ⟨by decide, copy_string_ptr_deep witStore 0 (mkBuf [9]) (by decide)⟩

theorem wellFormed_mkResult (s : Status) (p : List string) :
    wellFormedResult (mkResult s p) := by
  refine ⟨by simp [mkResult], by simp [mkResult], ?_, ⟨s, ?_⟩⟩
  · intro x hx
    simp only [mkResult, List.mem_cons, List.mem_map] at hx
    rcases hx with rfl | ⟨y, _, rfl⟩ <;> rfl
  · unfold resultStatus stringArrayRef mkResult
    rw [if_pos (by simp)]
    rfl

theorem resultStatus_mkResult (s : Status) (p : List string) :
    resultStatus (mkResult s p) = some (statusBuf s) := by
  unfold resultStatus stringArrayRef mkResult
  rw [if_pos (by simp)]
  rfl

theorem rosie_init_shape (usable : List Byte → Bool) (st : RosieState)
    (home : List Byte) :
    ∃ s p, (rosie_init usable st home).1 = mkResult s p := by
  unfold rosie_init
  repeat' split
  all_goals exact ⟨_, _, rfl⟩

theorem new_engine_shape (parse : string → Option Engine) (st : RosieState)
    (config : string) :
    ∃ s p, (new_engine parse st config).1 = mkResult s p := by
  unfold new_engine
  repeat' split
  all_goals exact ⟨_, _, rfl⟩

theorem inspect_engine_shape (st : RosieState) (eid : string) :
    ∃ s p, (inspect_engine st eid).1 = mkResult s p := by
  unfold inspect_engine
  repeat' split
  all_goals exact ⟨_, _, rfl⟩

theorem rosie_match_shape (st : RosieState) (eid input : string) :
    ∃ s p, (rosie_match st eid input).1 = mkResult s p := by
  unfold rosie_match
  repeat' split
  all_goals exact ⟨_, _, rfl⟩

theorem delete_engine_shape (st : RosieState) (eid : string) :
    ∃ s p, (delete_engine st eid).1 = mkResult s p := by
  unfold delete_engine
  repeat' split
  all_goals exact ⟨_, _, rfl⟩

theorem rosie_api_shape (parse : string → Option Engine) (st : RosieState)
    (name : List Byte) (args : List string) :
    ∃ s p, (rosie_api parse st name args).1 = mkResult s p := by
  unfold rosie_api
  repeat' split
  all_goals
    first
      | exact ⟨_, _, rfl⟩
      | apply new_engine_shape
      | apply inspect_engine_shape
      | apply rosie_match_shape
      | apply delete_engine_shape

/-- C3: every boundary operation of the bridge returns a well-formed
BufferArray: its count equals the number of elements, no element is null
while the count is positive, and element 0 is a status buffer, so every
returned array has at least one element. -/
theorem boundary_results_wellFormed (usable : List Byte → Bool)
    (parse : string → Option Engine) (st : RosieState) (home : List Byte)
    (config eid input : string) (name : List Byte) (args : List string) :
    wellFormedResult (rosie_init usable st home).1 ∧
    wellFormedResult (new_engine parse st config).1 ∧
    wellFormedResult (inspect_engine st eid).1 ∧
    wellFormedResult (rosie_match st eid input).1 ∧
    wellFormedResult (delete_engine st eid).1 ∧
    wellFormedResult (rosie_api parse st name args).1 := by
  obtain ⟨s1, p1, h1⟩ := rosie_init_shape usable st home
  obtain ⟨s2, p2, h2⟩ := new_engine_shape parse st config
  obtain ⟨s3, p3, h3⟩ := inspect_engine_shape st eid
  obtain ⟨s4, p4, h4⟩ := rosie_match_shape st eid input
  obtain ⟨s5, p5, h5⟩ := delete_engine_shape st eid
  obtain ⟨s6, p6, h6⟩ := rosie_api_shape parse st name args
  exact ⟨h1 ▸ wellFormed_mkResult s1 p1, h2 ▸ wellFormed_mkResult s2 p2,
         h3 ▸ wellFormed_mkResult s3 p3, h4 ▸ wellFormed_mkResult s4 p4,
         h5 ▸ wellFormed_mkResult s5 p5, h6 ▸ wellFormed_mkResult s6 p6⟩

/-- C5: calling initialize while the runtime is already initialized, or with
a home path that does not resolve to a usable installation, returns a
usage-error result and leaves the runtime state unchanged. -/
theorem rosie_init_error_unchanged (usable : List Byte → Bool) (st : RosieState)
    (home : List Byte)
    (h : st.runtime = RuntimeState.initialized ∨ usable home = false) :
    rosie_init usable st home = (mkResult Status.usageError [], st) := by
  unfold rosie_init
  rcases h with h | h
  · rw [if_neg (by rw [h]; decide)]
  · by_cases hr : st.runtime = RuntimeState.uninitialized
    · rw [if_pos hr, if_neg (by rw [h]; decide)]
    · rw [if_neg hr]

/-- A concrete already-initialized state used to instantiate hypotheses. -/
def witInitState : RosieState :=
  { runtime := RuntimeState.initialized, engines := [], nextId := 0 }

/-- A concrete home-path oracle accepting every path. -/
def witUsable : List Byte → Bool := fun _ => true

/-- Witness for C5: double-initialize on a concrete initialized state. -/
theorem rosie_init_error_unchanged_witness :
    (witInitState.runtime = RuntimeState.initialized ∨ witUsable [] = false) ∧
    rosie_init witUsable witInitState [] = (mkResult Status.usageError [], witInitState) :=
  ⟨Or.inl rfl, rosie_init_error_unchanged witUsable witInitState [] (Or.inl rfl)⟩

/-- C7: dispatching an operation name outside the fixed supported set returns
an unknown-operation error result and leaves the registry and runtime state
exactly unchanged. -/
theorem rosie_api_unknown_operation (parse : string → Option Engine)
    (st : RosieState) (name : List Byte) (args : List string)
    (h : name ∉ supportedOps) :
    rosie_api parse st name args = (mkResult Status.unknownOperation [], st) := by
  have h1 : ¬ name = opNewEngine := fun e => h (by rw [e]; simp [supportedOps])
  have h2 : ¬ name = opInspectEngine := fun e => h (by rw [e]; simp [supportedOps])
  have h3 : ¬ name = opMatch := fun e => h (by rw [e]; simp [supportedOps])
  have h4 : ¬ name = opDeleteEngine := fun e => h (by rw [e]; simp [supportedOps])
  unfold rosie_api
  rw [if_neg h1, if_neg h2, if_neg h3, if_neg h4]

/-- A concrete configuration parser accepting every configuration. -/
def witParse : string → Option Engine :=
  fun c => some { config := c.ptr, matcher := trivialMatcher }

/-- Witness for C7 at a concrete unsupported operation name. -/
theorem rosie_api_unknown_operation_witness :
    ([120] : List Byte) ∉ supportedOps ∧
    rosie_api witParse witInitState [120] []
      = (mkResult Status.unknownOperation [], witInitState) :=
  ⟨by decide, rosie_api_unknown_operation witParse witInitState [120] [] (by decide)⟩

theorem new_engine_not_initialized (parse : string → Option Engine)
    (st : RosieState) (config : string)
    (h : st.runtime ≠ RuntimeState.initialized) :
    new_engine parse st config = (mkResult Status.usageError [], st) := by
  unfold new_engine
  rw [if_neg h]

theorem inspect_engine_not_initialized (st : RosieState) (eid : string)
    (h : st.runtime ≠ RuntimeState.initialized) :
    inspect_engine st eid = (mkResult Status.usageError [], st) := by
  unfold inspect_engine
  rw [if_neg h]

theorem rosie_match_not_initialized (st : RosieState) (eid input : string)
    (h : st.runtime ≠ RuntimeState.initialized) :
    rosie_match st eid input = (mkResult Status.usageError [], st) := by
  unfold rosie_match
  rw [if_neg h]

theorem delete_engine_not_initialized (st : RosieState) (eid : string)
    (h : st.runtime ≠ RuntimeState.initialized) :
    delete_engine st eid = (mkResult Status.usageError [], st) := by
  unfold delete_engine
  rw [if_neg h]

theorem rosie_api_not_initialized (parse : string → Option Engine)
    (st : RosieState) (name : List Byte) (args : List string)
    (h : st.runtime ≠ RuntimeState.initialized) :
    ∃ s : Status, resultStatus (rosie_api parse st name args).1
        = some (statusBuf s) ∧ s.isUsageClass = true ∧ s ≠ Status.ok := by
  unfold rosie_api
  repeat' split
  all_goals
    first
      | (rw [new_engine_not_initialized _ _ _ h]
         exact ⟨Status.usageError, resultStatus_mkResult _ _, rfl, by decide⟩)
      | (rw [inspect_engine_not_initialized _ _ h]
         exact ⟨Status.usageError, resultStatus_mkResult _ _, rfl, by decide⟩)
      | (rw [rosie_match_not_initialized _ _ _ h]
         exact ⟨Status.usageError, resultStatus_mkResult _ _, rfl, by decide⟩)
      | (rw [delete_engine_not_initialized _ _ h]
         exact ⟨Status.usageError, resultStatus_mkResult _ _, rfl, by decide⟩)
      | exact ⟨Status.arityError, resultStatus_mkResult _ _, rfl, by decide⟩
      | exact ⟨Status.unknownOperation, resultStatus_mkResult _ _, rfl, by decide⟩

theorem finalize_runtime (st : RosieState) :
    (finalize st).runtime = RuntimeState.finalized := rfl

/-- C4: in the state reached by initialize followed by finalize, every named
engine operation returns the usage-error status with the state unchanged,
and every dispatch through rosie_api returns a usage-class error status and
never the success status. -/
theorem dispatch_after_finalize (usable : List Byte → Bool)
    (parse : string → Option Engine) (st : RosieState) (home : List Byte)
    (name : List Byte) (args : List string) (config eid input : string) :
    new_engine parse (finalize (rosie_init usable st home).2) config
      = (mkResult Status.usageError [], finalize (rosie_init usable st home).2) ∧
    inspect_engine (finalize (rosie_init usable st home).2) eid
      = (mkResult Status.usageError [], finalize (rosie_init usable st home).2) ∧
    rosie_match (finalize (rosie_init usable st home).2) eid input
      = (mkResult Status.usageError [], finalize (rosie_init usable st home).2) ∧
    delete_engine (finalize (rosie_init usable st home).2) eid
      = (mkResult Status.usageError [], finalize (rosie_init usable st home).2) ∧
    ∃ s : Status,
      resultStatus (rosie_api parse (finalize (rosie_init usable st home).2) name args).1
          = some (statusBuf s) ∧ s.isUsageClass = true ∧ s ≠ Status.ok := by
  have h : (finalize (rosie_init usable st home).2).runtime
      ≠ RuntimeState.initialized := by
    rw [finalize_runtime]
    decide
  exact ⟨new_engine_not_initialized parse _ config h,
         inspect_engine_not_initialized _ eid h,
         rosie_match_not_initialized _ eid input h,
         delete_engine_not_initialized _ eid h,
         rosie_api_not_initialized parse _ name args h⟩

theorem lookupId_gt_none (i : Nat) (l : List (Nat × Engine))
    (h : ∀ p ∈ l, p.1 < i) : lookupId i l = none := by
  induction l with
  | nil => rfl
  | cons p rest ih =>
      have hp : p.1 < i := h p (List.mem_cons_self p rest)
      unfold lookupId
      rw [if_neg (by omega)]
      exact ih (fun q hq => h q (List.mem_cons_of_mem p hq))

theorem delete_engine_unknown (st : RosieState) (eid : string)
    (hrt : st.runtime = RuntimeState.initialized)
    (hun : lookupEngine st eid = none) :
    delete_engine st eid = (mkResult Status.unknownEngine [], st) := by
  unfold lookupEngine at hun
  unfold delete_engine
  rw [if_pos hrt]
  cases hd : decodeId eid with
  | none => simp only [hd]
  | some i =>
      simp only [hd] at hun
      simp only [hd, hun]

/-- C6: a delete_engine whose identifier names no live engine returns the
non-fatal unknown-engine status with the state unchanged; after new_engine,
a first delete_engine with the returned identifier succeeds and a second one
with the same identifier returns the unknown-engine status. -/
theorem delete_engine_lifecycle (parse : string → Option Engine)
    (st : RosieState) (config : string) (eng : Engine) (eid2 : string)
    (hrt : st.runtime = RuntimeState.initialized)
    (hb : ∀ p ∈ st.engines, p.1 < st.nextId)
    (hp : parse config = some eng)
    (hun : lookupEngine st eid2 = none) :
    delete_engine st eid2 = (mkResult Status.unknownEngine [], st) ∧
    (new_engine parse st config).1 = mkResult Status.ok [idBuf st.nextId] ∧
    resultStatus
        (delete_engine (new_engine parse st config).2 (idBuf st.nextId)).1
      = some (statusBuf Status.ok) ∧
    resultStatus
        (delete_engine
          (delete_engine (new_engine parse st config).2 (idBuf st.nextId)).2
          (idBuf st.nextId)).1
      = some (statusBuf Status.unknownEngine) := by
  have hne : new_engine parse st config
      = (mkResult Status.ok [idBuf st.nextId],
         { st with engines := (st.nextId, eng) :: st.engines,
                   nextId := st.nextId + 1 }) := by
    unfold new_engine
    rw [if_pos hrt, hp]
  have hdec : decodeId (idBuf st.nextId) = some st.nextId := rfl
  have hlk : lookupId st.nextId ((st.nextId, eng) :: st.engines) = some eng := by
    unfold lookupId
    rw [if_pos rfl]
  have hfil : ((st.nextId, eng) :: st.engines).filter (fun p => p.1 != st.nextId)
      = st.engines := by
    have htail : st.engines.filter (fun p => p.1 != st.nextId) = st.engines := by
      rw [List.filter_eq_self]
      intro a ha
      have hlt := hb a ha
      simp only [bne_iff_ne, ne_eq]
      omega
    simp [List.filter_cons, htail]
  have hdel1 : delete_engine
      { st with engines := (st.nextId, eng) :: st.engines,
                nextId := st.nextId + 1 }
      (idBuf st.nextId)
      = (mkResult Status.ok [],
         { st with engines := st.engines, nextId := st.nextId + 1 }) := by
    unfold delete_engine
    rw [if_pos hrt]
    simp only [hdec, hlk, hfil]
  have hnone : lookupId st.nextId st.engines = none :=
    lookupId_gt_none st.nextId st.engines hb
  have hdel2 : delete_engine
      { st with engines := st.engines, nextId := st.nextId + 1 }
      (idBuf st.nextId)
      = (mkResult Status.unknownEngine [],
         { st with engines := st.engines, nextId := st.nextId + 1 }) := by
    unfold delete_engine
    rw [if_pos hrt]
    simp only [hdec, hnone]
  refine ⟨delete_engine_unknown st eid2 hrt hun, by rw [hne], ?_, ?_⟩
  · rw [hne, hdel1]
    exact resultStatus_mkResult _ _
  · rw [hne, hdel1, hdel2]
    exact resultStatus_mkResult _ _

/-- A concrete engine running the trivial always-succeed matcher. -/
def witEngine : Engine :=
  { config := [], matcher := trivialMatcher }

/-- A concrete initialized state with an empty registry. -/
def witEmptyState : RosieState :=
  { runtime := RuntimeState.initialized, engines := [], nextId := 0 }

/-- Witness for C6 at a concrete state, configuration, and identifier. -/
theorem delete_engine_lifecycle_witness :
    delete_engine witEmptyState (idBuf 5)
      = (mkResult Status.unknownEngine [], witEmptyState) ∧
    (new_engine witParse witEmptyState (mkBuf [])).1
      = mkResult Status.ok [idBuf witEmptyState.nextId] ∧
    resultStatus
        (delete_engine (new_engine witParse witEmptyState (mkBuf [])).2
          (idBuf witEmptyState.nextId)).1
      = some (statusBuf Status.ok) ∧
    resultStatus
        (delete_engine
          (delete_engine (new_engine witParse witEmptyState (mkBuf [])).2
            (idBuf witEmptyState.nextId)).2
          (idBuf witEmptyState.nextId)).1
      = some (statusBuf Status.unknownEngine) :=
  delete_engine_lifecycle witParse witEmptyState (mkBuf []) witEngine (idBuf 5)
    rfl (by simp [witEmptyState]) rfl rfl

/-- C8: match on a live engine whose pattern is the trivial always-succeed
matcher returns the success status, and its leftover-length element encodes
the input length, an integer lying between 0 and the input length. -/
theorem rosie_match_trivial (st : RosieState) (eid input : string) (eng : Engine)
    (hrt : st.runtime = RuntimeState.initialized)
    (hl : lookupEngine st eid = some eng)
    (hm : eng.matcher = trivialMatcher)
    (hwf : input.len = input.ptr.length) :
    resultStatus (rosie_match st eid input).1 = some (statusBuf Status.ok) ∧
    stringArrayRef (rosie_match st eid input).1 3
      = some (natBuf input.ptr.length) ∧
    input.ptr.length ≤ input.len := by
  have hcall : rosie_match st eid input
      = (mkResult Status.ok
          [boolBuf true,
           mkBuf (input.ptr.take (input.ptr.length - input.ptr.length)),
           natBuf input.ptr.length, mkBuf []], st) := by
    unfold rosie_match
    rw [if_pos hrt]
    simp only [hl, hm, trivialMatcher]
  rw [hcall]
  refine ⟨resultStatus_mkResult _ _, ?_, by omega⟩
  unfold stringArrayRef mkResult
  rw [if_pos (by simp)]
  rfl

/-- A concrete initialized state holding one trivial-pattern engine. -/
def witMatchState : RosieState :=
  { runtime := RuntimeState.initialized, engines := [(0, witEngine)], nextId := 1 }

/-- Witness for C8 at a concrete state, engine, and input. -/
theorem rosie_match_trivial_witness :
    resultStatus (rosie_match witMatchState (idBuf 0) (mkBuf [3, 4])).1
      = some (statusBuf Status.ok) ∧
    stringArrayRef (rosie_match witMatchState (idBuf 0) (mkBuf [3, 4])).1 3
      = some (natBuf (mkBuf [3, 4]).ptr.length) ∧
    (mkBuf [3, 4]).ptr.length ≤ (mkBuf [3, 4]).len :=
  rosie_match_trivial witMatchState (idBuf 0) (mkBuf [3, 4]) witEngine
    rfl rfl rfl rfl

end Librosie
